import Mathlib

/-!
Verification of the SPIFlash driver (src/SPIFlash.cpp).

The driver is shallowly embedded as state-passing functions over a mock
environment consisting of
* a `Chip` model (the flash device on the other end of the SPI bus): a
  busy counter driving the status-register responses, a device-identifier
  response sequence, the flash memory array (keyed by 24-bit address, as
  selected by the three address bytes of each command), and the unique-id
  bytes; and
* a `trace` of bus events (`beginTransaction`, chip-select low/high,
  `endTransaction`, and each byte shifted out on MOSI), recording the full
  bus transcript of every operation.

Machine integers are modelled as `Nat` with explicit truncation where the
C++ types force it: `uint8` transfers as `% 256`, the `uint32` address
arithmetic of `writeBytes` as `% 4294967296`, the 24-bit on-wire address as
`% 16777216`, the `uint16` device id as `% 65536`.

The two source loops with data-dependent trip counts (`while(busy())` and
the `writeBytes` chunk loop) are embedded with an explicit fuel argument
that provably suffices: each `busy()` poll consumes one tick of the mock
field `busyCount`, and each `writeBytes` iteration transfers at least one byte.
-/

namespace SPIFlash

/-- Modelled from the spec: the opcode constants are declared in the library
header `SPIFlash.h`, which is not under `src/`; per the spec (section 6) they
are the chip-family-standard SPI-NOR opcodes, preserved bit-for-bit. -/
def SPIFLASH_WRITEENABLE : Nat := 0x06

/-- Modelled from the spec: standard SPI-NOR status-read opcode. -/
def SPIFLASH_STATUSREAD : Nat := 0x05

/-- Modelled from the spec: standard SPI-NOR status-write opcode. -/
def SPIFLASH_STATUSWRITE : Nat := 0x01

/-- Modelled from the spec: standard SPI-NOR high-frequency array-read opcode. -/
def SPIFLASH_ARRAYREAD : Nat := 0x0B

/-- Modelled from the spec: standard SPI-NOR low-frequency array-read opcode. -/
def SPIFLASH_ARRAYREADLOWFREQ : Nat := 0x03

/-- Modelled from the spec: standard SPI-NOR byte/page-program opcode. -/
def SPIFLASH_BYTEPAGEPROGRAM : Nat := 0x02

/-- Modelled from the spec: standard SPI-NOR chip-erase opcode. -/
def SPIFLASH_CHIPERASE : Nat := 0x60

/-- Modelled from the spec: standard SPI-NOR 4K block-erase opcode. -/
def SPIFLASH_BLOCKERASE_4K : Nat := 0x20

/-- Modelled from the spec: standard SPI-NOR 32K block-erase opcode. -/
def SPIFLASH_BLOCKERASE_32K : Nat := 0x52

/-- Modelled from the spec: standard SPI-NOR 64K block-erase opcode. -/
def SPIFLASH_BLOCKERASE_64K : Nat := 0xD8

/-- Modelled from the spec: standard SPI-NOR power-down opcode. -/
def SPIFLASH_SLEEP : Nat := 0xB9

/-- Modelled from the spec: standard SPI-NOR release-power-down (wake) opcode. -/
def SPIFLASH_WAKE : Nat := 0xAB

/-- Modelled from the spec: standard JEDEC id-read opcode. -/
def SPIFLASH_IDREAD : Nat := 0x9F

/-- Modelled from the spec: standard unique-id-read opcode. -/
def SPIFLASH_MACREAD : Nat := 0x4B

/-- Bus events observable on the SPI bus and chip-select line.
`xfer b` records the byte `b` shifted out by the MCU on one
`_spi->transfer` call. -/
inductive Ev where
  | beginTr : Ev
  | csLow : Ev
  | csHigh : Ev
  | endTr : Ev
  | xfer : Nat → Ev
deriving DecidableEq

/-- Mock flash chip.  `busyCount` is the number of status reads that will
still report the write-in-progress bit before the chip reports not-busy
(each status read consumes one tick); `idSeq k` is the 16-bit device id the
chip answers to its `k`-th id-read command, `idReads` the number of id reads
performed so far; `mem` is the flash array keyed by 24-bit address; `uid`
are the unique-id bytes. -/
structure Chip where
  busyCount : Nat
  idSeq : Nat → Nat
  idReads : Nat
  mem : Nat → Nat
  uid : Nat → Nat

/-- Driver-visible state: the chip model plus the bus transcript so far. -/
structure St where
  chip : Chip
  trace : List Ev

/-- Source `SPIFlash::select`: `_spi->beginTransaction(_settings); digitalWrite(_slaveSelectPin, LOW);` -/
def select (s : St) : St :=
  ⟨s.chip, s.trace ++ [Ev.beginTr, Ev.csLow]⟩

/-- Source `SPIFlash::unselect`: `digitalWrite(_slaveSelectPin, HIGH); _spi->endTransaction();` -/
def unselect (s : St) : St :=
  ⟨s.chip, s.trace ++ [Ev.csHigh, Ev.endTr]⟩

/-- One `_spi->transfer(b)` whose response the driver ignores. -/
def transferOut (b : Nat) (s : St) : St :=
  ⟨s.chip, s.trace ++ [Ev.xfer b]⟩

/-- The three address transfers `transfer(addr >> 16); transfer(addr >> 8);
transfer(addr);` — each argument truncated to `uint8`. -/
def transferAddr (a : Nat) (s : St) : St :=
  transferOut (a % 256) (transferOut ((a >>> 8) % 256) (transferOut ((a >>> 16) % 256) s))

/-- Status byte the mock chip shifts out on a status read: bit 0 (write in
progress) is set while `busyCount` is positive. -/
def statusResp (c : Chip) : Nat :=
  if 0 < c.busyCount then 1 else 0

/-- Advance the mock chip past one status read. -/
def statusStep (c : Chip) : Chip :=
  { c with busyCount := c.busyCount - 1 }

/-- The `transfer(0)` of a status-read command: returns the status byte. -/
def transferStatus (s : St) : Nat × St :=
  (statusResp s.chip, ⟨statusStep s.chip, s.trace ++ [Ev.xfer 0]⟩)

/-- Source `SPIFlash::readStatus`: `select(); transfer(STATUSREAD); status = transfer(0); unselect();` -/
def readStatus (s : St) : Nat × St :=
  match transferStatus (transferOut SPIFLASH_STATUSREAD (select s)) with
  | (status, s1) => (status, unselect s1)

/-- Source `SPIFlash::busy`: `return readStatus() & 1;` (nonzero is true). -/
def busy (s : St) : Bool × St :=
  match readStatus s with
  | (status, s1) => ((status &&& 1) != 0, s1)

/-- Body of `while(busy());` with fuel.  Each `busy()` call consumes one
tick of the mock field `busyCount`, so `busyCount + 1` calls always suffice. -/
def whileBusyFuel : Nat → St → St
  | 0, s => s
  | Nat.succ f, s =>
    match busy s with
    | (true, s1) => whileBusyFuel f s1
    | (false, s1) => s1

/-- Source loop `while(busy());` — the fuel `busyCount + 1` is exact for the mock chip. -/
def whileBusy (s : St) : St :=
  whileBusyFuel (s.chip.busyCount + 1) s

/-- Source `SPIFlash::command` without the write-enable prefix (the `isWrite=false`
case): `if (cmd != SPIFLASH_WAKE) while(busy()); select(); transfer(cmd);` -/
def commandCore (cmd : Nat) (s : St) : St :=
  transferOut cmd (select (if cmd ≠ SPIFLASH_WAKE then whileBusy s else s))

/-- Source `SPIFlash::command(cmd, isWrite)`.  The write-enable prefix is the
recursive call in the source, `command(SPIFLASH_WRITEENABLE)` (default
`isWrite=false`, hence `commandCore`) followed by `unselect()`. -/
def command (cmd : Nat) (isWrite : Bool) (s : St) : St :=
  commandCore cmd (if isWrite then unselect (commandCore SPIFLASH_WRITEENABLE s) else s)

/-- The two response transfers of `SPIFlash::readDeviceId`:
`jedecid = transfer(0) << 8; jedecid |= transfer(0);` — the mock chip
shifts out the high then low byte of its 16-bit id and counts the read. -/
def transferId (s : St) : Nat × St :=
  (s.chip.idSeq s.chip.idReads % 65536,
   ⟨{ s.chip with idReads := s.chip.idReads + 1 }, s.trace ++ [Ev.xfer 0, Ev.xfer 0]⟩)

/-- Source `SPIFlash::readDeviceId`: `select(); transfer(IDREAD); read two id bytes; unselect();`
(no dispatcher, hence no busy gate). -/
def readDeviceId (s : St) : Nat × St :=
  match transferId (transferOut SPIFLASH_IDREAD (select s)) with
  | (jedecid, s1) => (jedecid, unselect s1)

/-- Sequence of `len` response transfers `transfer(0)` whose values come from the chip. -/
def transferReads (len : Nat) (s : St) : St :=
  ⟨s.chip, s.trace ++ List.replicate len (Ev.xfer 0)⟩

/-- Source `SPIFlash::readByte(addr)`: low-frequency read command, three address
bytes, one response byte from the array at the 24-bit on-wire address. -/
def readByte (a : Nat) (s : St) : Nat × St :=
  (s.chip.mem (a % 16777216) % 256,
   unselect (transferOut 0 (transferAddr a (command SPIFLASH_ARRAYREADLOWFREQ false s))))

/-- Source `SPIFlash::readBytes(addr, buf, len)`: high-frequency read command, three
address bytes, one filler byte, then `len` response bytes; the chip
auto-increments its internal pointer modulo the array size. -/
def readBytes (a len : Nat) (s : St) : List Nat × St :=
  ((List.range len).map fun i => s.chip.mem ((a % 16777216 + i) % 16777216) % 256,
   unselect (transferReads len (transferOut 0 (transferAddr a (command SPIFLASH_ARRAYREAD false s)))))

/-- Pointwise memory update of the mock array. -/
def memStore (m : Nat → Nat) (a v : Nat) : Nat → Nat :=
  fun x => if x = a then v else m x

/-- One payload transfer of a page-program command: the byte (truncated to
`uint8`) is shifted out and the mock chip stores it at the 24-bit address. -/
def transferData (a v : Nat) (s : St) : St :=
  ⟨{ s.chip with mem := memStore s.chip.mem (a % 16777216) (v % 256) },
   s.trace ++ [Ev.xfer (v % 256)]⟩

/-- Source `SPIFlash::writeByte(addr, byt)`: page-program dispatch, three address
bytes, one payload byte. -/
def writeByte (a v : Nat) (s : St) : St :=
  unselect (transferData a v (transferAddr a (command SPIFLASH_BYTEPAGEPROGRAM true s)))

/-- The payload loop of one `writeBytes` chunk:
`for (i = 0; i < n; i++) transfer(((uint8_t*)buf)[offset + i]);` -/
def programBytes (buf : Nat → Nat) : Nat → Nat → Nat → St → St
  | _, _, 0, s => s
  | a, off, Nat.succ k, s => programBytes buf (a + 1) (off + 1) k (transferData a (buf off) s)

/-- The `while (len>0)` loop of `SPIFlash::writeBytes`, with fuel.  Each
iteration issues one page-program command of `n = min len maxBytes` bytes,
then advances `addr` (with `uint32` wrap-around), `offset` and `len` by `n`
and resets `maxBytes` to 256.  Fuel `len` suffices since `n ≥ 1` whenever
`len > 0` and `maxBytes ≥ 1`. -/
def writeBytesGo (buf : Nat → Nat) : Nat → Nat → Nat → Nat → Nat → St → St
  | 0, _, _, _, _, s => s
  | Nat.succ fuel, addr, len, maxBytes, offset, s =>
    if len = 0 then s
    else
      writeBytesGo buf fuel ((addr + min len maxBytes) % 4294967296)
        (len - min len maxBytes) 256 (offset + min len maxBytes)
        (unselect (programBytes buf addr offset (min len maxBytes)
          (transferAddr addr (command SPIFLASH_BYTEPAGEPROGRAM true s))))

/-- Source `SPIFlash::writeBytes(addr, buf, len)` — the first chunk is capped at
`maxBytes = 256 - addr % 256`. -/
def writeBytes (addr : Nat) (buf : Nat → Nat) (len : Nat) (s : St) : St :=
  writeBytesGo buf len addr len (256 - addr % 256) 0 s

/-- Source `SPIFlash::chipErase`. -/
def chipErase (s : St) : St :=
  unselect (command SPIFLASH_CHIPERASE true s)

/-- Source `SPIFlash::blockErase4K(addr)`. -/
def blockErase4K (a : Nat) (s : St) : St :=
  unselect (transferAddr a (command SPIFLASH_BLOCKERASE_4K true s))

/-- Source `SPIFlash::blockErase32K(addr)`. -/
def blockErase32K (a : Nat) (s : St) : St :=
  unselect (transferAddr a (command SPIFLASH_BLOCKERASE_32K true s))

/-- Source `SPIFlash::blockErase64K(addr)`. -/
def blockErase64K (a : Nat) (s : St) : St :=
  unselect (transferAddr a (command SPIFLASH_BLOCKERASE_64K true s))

/-- Source `SPIFlash::sleep`. -/
def sleep (s : St) : St :=
  unselect (command SPIFLASH_SLEEP false s)

/-- Source `SPIFlash::wakeup`. -/
def wakeup (s : St) : St :=
  unselect (command SPIFLASH_WAKE false s)

/-- Source `SPIFlash::readUniqueId`: unique-id command, four filler transfers, then
eight response bytes (stored in the `UNIQUEID` cache and returned). -/
def readUniqueId (s : St) : List Nat × St :=
  ((List.range 8).map fun i => s.chip.uid i % 256,
   unselect (transferReads 8 (transferReads 4 (command SPIFLASH_MACREAD false s))))

/-- The `for (i=0;i<10;i++)` loop of `SPIFlash::found`, with the loop index
`i`, the `deviceID` accumulator and the remaining iteration count as
arguments; a violating read sets `deviceID = 0` and breaks. -/
def foundLoop : Nat → Nat → Nat → St → Nat × St
  | 0, _, deviceID, s => (deviceID, s)
  | Nat.succ fuel, i, deviceID, s =>
    match readDeviceId s with
    | (idNow, s1) =>
      if idNow = 0 ∨ idNow = 65535 ∨ (0 < i ∧ idNow ≠ deviceID) then (0, s1)
      else foundLoop fuel (i + 1) idNow s1

/-- Source `SPIFlash::found`: wake the chip, then require up to ten consistent,
non-zero, non-0xFFFF device-id reads. -/
def found (s : St) : Bool × St :=
  match foundLoop 10 0 0 (wakeup s) with
  | (deviceID, s1) => (deviceID != 0, s1)

/-- Source `SPIFlash::regionIsEmpty(startAddress, length)`: read `length` bytes and
require every one to be `0xFF`. -/
def regionIsEmpty (a len : Nat) (s : St) : Bool × St :=
  match readBytes a len s with
  | (flashBuf, s1) => (flashBuf.all fun b => b == 255, s1)

/-- The global-unprotect tail of a successful `SPIFlash::initialize`:
`command(STATUSWRITE, true); transfer(0); unselect();`. -/
def initSuccess (s : St) : St :=
  unselect (transferOut 0 (command SPIFLASH_STATUSWRITE true s))

/-- Source `SPIFlash::initialize`: `pinMode` and `_spi->begin()` touch no modelled
bus event; then `unselect(); wakeup();` and the short-circuit test
`_jedecID == 0 || readDeviceId() == _jedecID` (the id is only read when a
nonzero expected id was configured), followed on success by the
status-register write of 0.  (Named `initFlash` here since `initialize` is
a reserved word in Lean.) -/
def initFlash (jedecID : Nat) (s : St) : Bool × St :=
  if jedecID = 0 then (true, initSuccess (wakeup (unselect s)))
  else
    match readDeviceId (wakeup (unselect s)) with
    | (id, s1) => if id = jedecID then (true, initSuccess s1) else (false, s1)

/-- The planner view of the `writeBytes` loop: the list of
`(start address, buffer offset, length)` chunk descriptors it issues, with
the same fuel and arithmetic as `writeBytesGo`. -/
def writePlanGo : Nat → Nat → Nat → Nat → Nat → List (Nat × Nat × Nat)
  | 0, _, _, _, _ => []
  | Nat.succ fuel, addr, len, maxBytes, offset =>
    if len = 0 then []
    else
      (addr, offset, min len maxBytes) ::
        writePlanGo fuel ((addr + min len maxBytes) % 4294967296)
          (len - min len maxBytes) 256 (offset + min len maxBytes)

/-- Chunk descriptors issued by `writeBytes addr buf len`. -/
def writePlan (addr len : Nat) : List (Nat × Nat × Nat) :=
  writePlanGo len addr len (256 - addr % 256) 0

/-- Bus transcript of one status-read exchange (one busy poll). -/
def statusSeq : List Ev :=
  [Ev.beginTr, Ev.csLow, Ev.xfer SPIFLASH_STATUSREAD, Ev.xfer 0, Ev.csHigh, Ev.endTr]

/-- Bus transcript of a `while(busy())` wait that sees `b` busy reports:
`b + 1` status-read exchanges, the last reporting not-busy. -/
def pollTrace : Nat → List Ev
  | 0 => statusSeq
  | Nat.succ b => statusSeq ++ pollTrace b

/-- Bus transcript head of a write-type dispatch on a not-busy chip: the
write-enable sub-command (itself gated by one poll) with its bus release,
then exactly one busy poll, then acquisition and the opcode transfer. -/
def writeHead (op : Nat) : List Ev :=
  statusSeq ++
    ([Ev.beginTr, Ev.csLow, Ev.xfer SPIFLASH_WRITEENABLE, Ev.csHigh, Ev.endTr] ++
      (statusSeq ++ [Ev.beginTr, Ev.csLow, Ev.xfer op]))

/-- The payload bytes of a chunk of `n` bytes taken from `buf` at `off`. -/
def payloadBytes (buf : Nat → Nat) (off n : Nat) : List Nat :=
  (List.range n).map fun i => buf (off + i) % 256

/-- The three most-significant-first address bytes put on the wire for `a`. -/
def addrEvs (a : Nat) : List Ev :=
  [Ev.xfer ((a >>> 16) % 256), Ev.xfer ((a >>> 8) % 256), Ev.xfer (a % 256)]

/-- Full bus transcript of one `writeBytes` chunk on a not-busy chip. -/
def chunkTrace (buf : Nat → Nat) (c : Nat × Nat × Nat) : List Ev :=
  writeHead SPIFLASH_BYTEPAGEPROGRAM ++
    (addrEvs c.1 ++ ((payloadBytes buf c.2.1 c.2.2).map Ev.xfer ++ [Ev.csHigh, Ev.endTr]))

/-- Concatenated transcripts of a chunk list. -/
def planTrace (buf : Nat → Nat) : List (Nat × Nat × Nat) → List Ev
  | [] => []
  | c :: r => chunkTrace buf c ++ planTrace buf r

/-- Concatenated payload bytes of a chunk list, in issue order. -/
def planPayloads (buf : Nat → Nat) : List (Nat × Nat × Nat) → List Nat
  | [] => []
  | c :: r => payloadBytes buf c.2.1 c.2.2 ++ planPayloads buf r

/-- The chunk list covers consecutive addresses (with `uint32` wrap-around)
and consecutive buffer offsets, starting from the given pair. -/
def planConsec : Nat → Nat → List (Nat × Nat × Nat) → Bool
  | _, _, [] => true
  | a, o, c :: r =>
    c.1 == a && c.2.1 == o && planConsec ((a + c.2.2) % 4294967296) (o + c.2.2) r

/-- Memory effect of the payload loop of one chunk on the mock array (mirrors
`programBytes`). -/
def storeRun (buf : Nat → Nat) : Nat → Nat → Nat → (Nat → Nat) → Nat → Nat
  | _, _, 0, m => m
  | a, off, Nat.succ k, m => storeRun buf (a + 1) (off + 1) k (memStore m (a % 16777216) (buf off % 256))

/-- Memory effect of a whole chunk list. -/
def applyPlan (buf : Nat → Nat) (m : Nat → Nat) : List (Nat × Nat × Nat) → Nat → Nat
  | [] => m
  | c :: r => applyPlan buf (storeRun buf c.1 c.2.1 c.2.2 m) r

/-- Number of command opcodes equal to `op` in a transcript: an opcode is
the byte transferred immediately after the chip is selected. -/
def opCount (op : Nat) : List Ev → Nat
  | Ev.csLow :: Ev.xfer b :: t => (if b = op then 1 else 0) + opCount op (Ev.xfer b :: t)
  | _ :: t => opCount op t
  | [] => 0

/-- Bus-discipline automaton: the state is (transaction open, chip
selected); a byte transfer is legal only while both hold, and acquiring an
already-open bus is illegal. -/
def busStep : Bool × Bool → Ev → Option (Bool × Bool)
  | st, Ev.beginTr => if st.1 then none else some (true, st.2)
  | st, Ev.endTr => some (false, st.2)
  | st, Ev.csLow => some (st.1, true)
  | st, Ev.csHigh => some (st.1, false)
  | st, Ev.xfer _ => if st.1 && st.2 then some st else none

/-- Run the bus-discipline automaton over a transcript. -/
def busRun : Option (Bool × Bool) → List Ev → Option (Bool × Bool)
  | none, _ => none
  | some st, [] => some st
  | some st, e :: t => busRun (busStep st e) t

/-- Bus transcript of one `readDeviceId` call. -/
def idTrace : List Ev :=
  [Ev.beginTr, Ev.csLow, Ev.xfer SPIFLASH_IDREAD, Ev.xfer 0, Ev.xfer 0, Ev.csHigh, Ev.endTr]

/-- Bus transcript of one `wakeup` call (no busy poll: the wake opcode
bypasses the busy gate). -/
def wakeTrace : List Ev :=
  [Ev.beginTr, Ev.csLow, Ev.xfer SPIFLASH_WAKE, Ev.csHigh, Ev.endTr]

/-- The condition the loop of `found` checks on its `k`-th id read (reads are
numbered from the id-read counter base `r0` of the chip): non-zero, not all-ones,
and — via the `deviceID` accumulator — equal to the previous read. -/
def goodStep (ids : Nat → Nat) (r0 k : Nat) : Prop :=
  ids (r0 + k) % 65536 ≠ 0 ∧ ids (r0 + k) % 65536 ≠ 65535 ∧
    (k = 0 ∨ ids (r0 + k) % 65536 = ids (r0 + (k - 1)) % 65536)

instance (ids : Nat → Nat) (r0 k : Nat) : Decidable (goodStep ids r0 k) := by
  unfold goodStep
  infer_instance

/-- The phrasing the spec uses for the same condition: non-zero, not all-ones, and
equal to the first read. -/
def goodFirst (ids : Nat → Nat) (r0 k : Nat) : Prop :=
  ids (r0 + k) % 65536 ≠ 0 ∧ ids (r0 + k) % 65536 ≠ 65535 ∧
    ids (r0 + k) % 65536 = ids r0 % 65536

instance (ids : Nat → Nat) (r0 k : Nat) : Decidable (goodFirst ids r0 k) := by
  unfold goodFirst
  infer_instance

/-- A concrete healthy chip used by the closed witness instances. -/
def chipA : Chip :=
  { busyCount := 0, idSeq := fun _ => 0xEF30, idReads := 0, mem := fun _ => 255, uid := fun _ => 0 }

/-- Initial state over `chipA` with an empty transcript. -/
def stA : St :=
  ⟨chipA, []⟩

theorem setBusy_zero {c : Chip} (h : c.busyCount = 0) : { c with busyCount := 0 } = c := by
  cases c
  simp_all

theorem transferAddr_spec (a : Nat) (s : St) :
    transferAddr a s = ⟨s.chip, s.trace ++ addrEvs a⟩ := by
  simp [transferAddr, transferOut, addrEvs]

theorem readStatus_spec (s : St) :
    readStatus s = (statusResp s.chip, ⟨statusStep s.chip, s.trace ++ statusSeq⟩) := by
  simp [readStatus, transferStatus, transferOut, select, unselect, statusSeq]

theorem busy_spec_zero {s : St} (h : s.chip.busyCount = 0) :
    busy s = (false, ⟨s.chip, s.trace ++ statusSeq⟩) := by
  simp [busy, readStatus_spec, statusResp, statusStep, h, setBusy_zero h]

theorem busy_spec_pos {s : St} (h : 0 < s.chip.busyCount) :
    busy s = (true, ⟨{ s.chip with busyCount := s.chip.busyCount - 1 }, s.trace ++ statusSeq⟩) := by
  simp [busy, readStatus_spec, statusResp, statusStep, h]

theorem whileBusyFuel_spec :
    ∀ (f : Nat) (s : St), s.chip.busyCount < f →
      whileBusyFuel f s = ⟨{ s.chip with busyCount := 0 }, s.trace ++ pollTrace s.chip.busyCount⟩ := by
  intro f
  induction f with
  | zero => intro s h; omega
  | succ f ih =>
    intro s h
    rcases Nat.eq_zero_or_pos s.chip.busyCount with h0 | hp
    · rw [h0]
      simp [whileBusyFuel, busy_spec_zero h0, pollTrace, setBusy_zero h0]
    · obtain ⟨k, hk⟩ : ∃ k, s.chip.busyCount = k + 1 :=
        ⟨s.chip.busyCount - 1, (Nat.succ_pred_eq_of_pos hp).symm⟩
      rw [hk]
      simp only [whileBusyFuel, busy_spec_pos hp, hk]
      rw [ih]
      · simp [pollTrace]
      · simp [hk]
        omega

theorem whileBusy_spec (s : St) :
    whileBusy s = ⟨{ s.chip with busyCount := 0 }, s.trace ++ pollTrace s.chip.busyCount⟩ :=
  whileBusyFuel_spec _ _ (Nat.lt_succ_self _)

theorem commandCore_wake (s : St) :
    commandCore SPIFLASH_WAKE s = ⟨s.chip, s.trace ++ [Ev.beginTr, Ev.csLow, Ev.xfer SPIFLASH_WAKE]⟩ := by
  simp [commandCore, select, transferOut]

theorem commandCore_spec {cmd : Nat} (h : cmd ≠ SPIFLASH_WAKE) (s : St) :
    commandCore cmd s =
      ⟨{ s.chip with busyCount := 0 },
       s.trace ++ (pollTrace s.chip.busyCount ++ [Ev.beginTr, Ev.csLow, Ev.xfer cmd])⟩ := by
  simp [commandCore, h, whileBusy_spec, select, transferOut]

theorem command_false_spec {cmd : Nat} (h : cmd ≠ SPIFLASH_WAKE) (s : St) :
    command cmd false s =
      ⟨{ s.chip with busyCount := 0 },
       s.trace ++ (pollTrace s.chip.busyCount ++ [Ev.beginTr, Ev.csLow, Ev.xfer cmd])⟩ := by
  simp [command, commandCore_spec h]

theorem command_true_spec {cmd : Nat} (h : cmd ≠ SPIFLASH_WAKE) (s : St) :
    command cmd true s =
      ⟨{ s.chip with busyCount := 0 },
       s.trace ++
         (pollTrace s.chip.busyCount ++
           ([Ev.beginTr, Ev.csLow, Ev.xfer SPIFLASH_WRITEENABLE, Ev.csHigh, Ev.endTr] ++
             (statusSeq ++ [Ev.beginTr, Ev.csLow, Ev.xfer cmd])))⟩ := by
  have hwe : SPIFLASH_WRITEENABLE ≠ SPIFLASH_WAKE := by decide
  simp [command, commandCore_spec hwe, unselect, commandCore_spec h, pollTrace]

theorem command_true_zero {cmd : Nat} {s : St} (h : cmd ≠ SPIFLASH_WAKE)
    (h0 : s.chip.busyCount = 0) :
    command cmd true s = ⟨s.chip, s.trace ++ writeHead cmd⟩ := by
  rw [command_true_spec h, h0]
  simp [writeHead, pollTrace, setBusy_zero h0]

theorem payloadBytes_zero (buf : Nat → Nat) (off : Nat) : payloadBytes buf off 0 = [] := by
  simp [payloadBytes]

theorem payloadBytes_succ (buf : Nat → Nat) (off n : Nat) :
    payloadBytes buf off (n + 1) = buf off % 256 :: payloadBytes buf (off + 1) n := by
  simp [payloadBytes, List.range_succ_eq_map, List.map_map, Function.comp,
    Nat.add_assoc, Nat.add_comm, Nat.add_left_comm]

theorem programBytes_spec (buf : Nat → Nat) :
    ∀ (n a off : Nat) (s : St),
      programBytes buf a off n s =
        ⟨{ s.chip with mem := storeRun buf a off n s.chip.mem },
         s.trace ++ (payloadBytes buf off n).map Ev.xfer⟩ := by
  intro n
  induction n with
  | zero =>
    intro a off s
    simp [programBytes, storeRun, payloadBytes]
  | succ k ih =>
    intro a off s
    rw [programBytes, ih]
    simp [transferData, storeRun, payloadBytes_succ]

theorem writeBytesGo_spec (buf : Nat → Nat) :
    ∀ (fuel addr len maxB off : Nat) (s : St), len ≤ fuel → 1 ≤ maxB →
      s.chip.busyCount = 0 →
      writeBytesGo buf fuel addr len maxB off s =
        ⟨{ s.chip with mem := applyPlan buf s.chip.mem (writePlanGo fuel addr len maxB off) },
         s.trace ++ planTrace buf (writePlanGo fuel addr len maxB off)⟩ := by
  intro fuel
  induction fuel with
  | zero =>
    intro addr len maxB off s hlen _ _
    have h : len = 0 := Nat.le_zero.mp hlen
    subst h
    simp [writeBytesGo, writePlanGo, applyPlan, planTrace]
  | succ fuel ih =>
    intro addr len maxB off s hlen hmax h0
    by_cases hl : len = 0
    · subst hl
      simp [writeBytesGo, writePlanGo, applyPlan, planTrace]
    · have hPP : SPIFLASH_BYTEPAGEPROGRAM ≠ SPIFLASH_WAKE := by decide
      simp only [writeBytesGo, if_neg hl]
      rw [command_true_zero hPP h0, transferAddr_spec, programBytes_spec]
      simp only [unselect]
      rw [ih]
      · simp [writePlanGo, if_neg hl, applyPlan, planTrace, chunkTrace, List.append_assoc]
      · omega
      · omega
      · exact h0

theorem writeBytes_spec (addr : Nat) (buf : Nat → Nat) (len : Nat) (s : St)
    (h0 : s.chip.busyCount = 0) :
    writeBytes addr buf len s =
      ⟨{ s.chip with mem := applyPlan buf s.chip.mem (writePlan addr len) },
       s.trace ++ planTrace buf (writePlan addr len)⟩ := by
  have : 1 ≤ 256 - addr % 256 := by omega
  exact writeBytesGo_spec buf len addr len _ 0 s (Nat.le_refl _) this h0

theorem writePlanGo_zero_len (fuel addr maxB off : Nat) :
    writePlanGo fuel addr 0 maxB off = [] := by
  cases fuel <;> simp [writePlanGo]

theorem writePlanGo_page :
    ∀ (fuel addr len maxB off : Nat), len ≤ fuel → maxB = 256 - addr % 256 →
      ∀ c ∈ writePlanGo fuel addr len maxB off, 1 ≤ c.2.2 ∧ c.1 % 256 + c.2.2 ≤ 256 := by
  intro fuel
  induction fuel with
  | zero =>
    intro addr len maxB off hlen _ c hc
    have h : len = 0 := by omega
    subst h
    simp [writePlanGo] at hc
  | succ fuel ih =>
    intro addr len maxB off hlen hm c hc
    by_cases hl : len = 0
    · subst hl
      simp [writePlanGo] at hc
    · simp only [writePlanGo, if_neg hl, List.mem_cons] at hc
      rcases hc with rfl | hc
      · refine ⟨by simp; omega, ?_⟩
        simp
        omega
      · by_cases hsplit : len ≤ maxB
        · have h : len - min len maxB = 0 := by omega
          rw [h, writePlanGo_zero_len] at hc
          simp at hc
        · have hmod : ((addr + min len maxB) % 4294967296) % 256 = 0 := by
            rw [Nat.mod_mod_of_dvd _ (by norm_num)]
            omega
          exact ih _ _ _ _ (by omega) (by omega) c hc

theorem page_div {a n : Nat} (h1 : 1 ≤ n) (h2 : a % 256 + n ≤ 256) :
    a / 256 = (a + n - 1) / 256 := by
  omega

theorem writePlanGo_aligned :
    ∀ (fuel addr len off : Nat), addr % 256 = 0 →
      ∀ c ∈ writePlanGo fuel addr len 256 off, c.1 % 256 = 0 ∧ c.2.2 ≤ 256 := by
  intro fuel
  induction fuel with
  | zero =>
    intro addr len off _ c hc
    simp [writePlanGo] at hc
  | succ fuel ih =>
    intro addr len off ha c hc
    by_cases hl : len = 0
    · subst hl
      simp [writePlanGo] at hc
    · simp only [writePlanGo, if_neg hl, List.mem_cons] at hc
      rcases hc with rfl | hc
      · exact ⟨ha, by simp⟩
      · by_cases hsplit : len ≤ 256
        · have h : len - min len 256 = 0 := by omega
          rw [h, writePlanGo_zero_len] at hc
          simp at hc
        · have hmod : ((addr + min len 256) % 4294967296) % 256 = 0 := by
            rw [Nat.mod_mod_of_dvd _ (by norm_num)]
            omega
          exact ih _ _ _ hmod c hc

theorem writePlan_tail (a len : Nat) :
    ∀ c ∈ (writePlan a len).tail, c.1 % 256 = 0 ∧ c.2.2 ≤ 256 := by
  intro c hc
  cases len with
  | zero => simp [writePlan, writePlanGo] at hc
  | succ l =>
    simp only [writePlan, writePlanGo, if_neg (Nat.succ_ne_zero l), List.tail_cons] at hc
    by_cases hsplit : l + 1 ≤ 256 - a % 256
    · have h : l + 1 - min (l + 1) (256 - a % 256) = 0 := by omega
      rw [h, writePlanGo_zero_len] at hc
      simp at hc
    · have hmod : ((a + min (l + 1) (256 - a % 256)) % 4294967296) % 256 = 0 := by
        rw [Nat.mod_mod_of_dvd _ (by norm_num)]
        omega
      exact writePlanGo_aligned _ _ _ _ hmod c hc

theorem writePlanGo_sum :
    ∀ (fuel addr len maxB off : Nat), len ≤ fuel → 1 ≤ maxB →
      ((writePlanGo fuel addr len maxB off).map fun c => c.2.2).sum = len := by
  intro fuel
  induction fuel with
  | zero =>
    intro addr len maxB off hlen _
    have h : len = 0 := by omega
    subst h
    simp [writePlanGo]
  | succ fuel ih =>
    intro addr len maxB off hlen hmax
    by_cases hl : len = 0
    · subst hl
      simp [writePlanGo]
    · simp only [writePlanGo, if_neg hl, List.map_cons, List.sum_cons]
      rw [ih _ _ _ _ (by omega) (by omega)]
      omega

theorem writePlanGo_consec :
    ∀ (fuel addr len maxB off : Nat),
      planConsec addr off (writePlanGo fuel addr len maxB off) = true := by
  intro fuel
  induction fuel with
  | zero =>
    intro addr len maxB off
    simp [writePlanGo, planConsec]
  | succ fuel ih =>
    intro addr len maxB off
    by_cases hl : len = 0
    · subst hl
      simp [writePlanGo, planConsec]
    · simp only [writePlanGo, if_neg hl, planConsec]
      simp [ih]

theorem payloadBytes_add (buf : Nat → Nat) (off n m : Nat) :
    payloadBytes buf off (n + m) = payloadBytes buf off n ++ payloadBytes buf (off + n) m := by
  simp [payloadBytes, List.range_add, List.map_map, Function.comp,
    Nat.add_assoc, Nat.add_comm, Nat.add_left_comm]

theorem writePlanGo_payloads (buf : Nat → Nat) :
    ∀ (fuel addr len maxB off : Nat), len ≤ fuel → 1 ≤ maxB →
      planPayloads buf (writePlanGo fuel addr len maxB off) = payloadBytes buf off len := by
  intro fuel
  induction fuel with
  | zero =>
    intro addr len maxB off hlen _
    have h : len = 0 := by omega
    subst h
    simp [writePlanGo, planPayloads, payloadBytes]
  | succ fuel ih =>
    intro addr len maxB off hlen hmax
    by_cases hl : len = 0
    · subst hl
      simp [writePlanGo, planPayloads, payloadBytes]
    · simp only [writePlanGo, if_neg hl, planPayloads]
      rw [ih _ _ _ _ (by omega) (by omega)]
      rw [show len = min len maxB + (len - min len maxB) by omega, payloadBytes_add]
      simp

theorem storeRun_spec (buf : Nat → Nat) :
    ∀ (n a off : Nat) (m : Nat → Nat) (x : Nat), a + n ≤ 16777216 →
      storeRun buf a off n m x =
        if a ≤ x ∧ x < a + n then buf (off + (x - a)) % 256 else m x := by
  intro n
  induction n with
  | zero =>
    intro a off m x _
    simp only [storeRun]
    rw [if_neg (by omega)]
  | succ k ih =>
    intro a off m x hbound
    have ha : a % 16777216 = a := Nat.mod_eq_of_lt (by omega)
    rw [storeRun, ih _ _ _ _ (by omega)]
    by_cases hx1 : a + 1 ≤ x ∧ x < a + 1 + k
    · rw [if_pos hx1]
      have harg : off + 1 + (x - (a + 1)) = off + (x - a) := by omega
      rw [harg, if_pos (by omega)]
    · rw [if_neg hx1]
      by_cases hx0 : x = a
      · subst hx0
        rw [if_pos (by omega)]
        simp [memStore, ha]
      · rw [if_neg (by omega)]
        simp [memStore, ha, hx0]

theorem applyPlanGo_spec (buf : Nat → Nat) :
    ∀ (fuel addr len maxB off : Nat) (m : Nat → Nat) (x : Nat),
      len ≤ fuel → 1 ≤ maxB → addr + len ≤ 16777216 →
      applyPlan buf m (writePlanGo fuel addr len maxB off) x =
        if addr ≤ x ∧ x < addr + len then buf (off + (x - addr)) % 256 else m x := by
  intro fuel
  induction fuel with
  | zero =>
    intro addr len maxB off m x hlen _ _
    have h : len = 0 := by omega
    subst h
    simp only [writePlanGo, applyPlan]
    rw [if_neg (by omega)]
  | succ fuel ih =>
    intro addr len maxB off m x hlen hmax hbound
    by_cases hl : len = 0
    · subst hl
      simp only [writePlanGo, applyPlan]
      rw [if_neg (by omega)]
    · have hn1 : 1 ≤ min len maxB := by omega
      have hnle : min len maxB ≤ len := Nat.min_le_left _ _
      have hwrap : (addr + min len maxB) % 4294967296 = addr + min len maxB :=
        Nat.mod_eq_of_lt (by omega)
      simp only [writePlanGo, if_neg hl, applyPlan]
      rw [hwrap, ih _ _ _ _ _ _ (by omega) (by omega) (by omega),
        storeRun_spec _ _ _ _ _ _ (by omega)]
      by_cases hx1 : addr + min len maxB ≤ x ∧ x < addr + min len maxB + (len - min len maxB)
      · rw [if_pos hx1]
        have harg : off + min len maxB + (x - (addr + min len maxB)) = off + (x - addr) := by
          omega
        rw [harg, if_pos (by omega)]
      · rw [if_neg hx1]
        by_cases hx2 : addr ≤ x ∧ x < addr + min len maxB
        · rw [if_pos hx2, if_pos (by omega)]
        · rw [if_neg hx2, if_neg (by omega)]

theorem readDeviceId_spec (s : St) :
    readDeviceId s =
      (s.chip.idSeq s.chip.idReads % 65536,
       ⟨{ s.chip with idReads := s.chip.idReads + 1 }, s.trace ++ idTrace⟩) := by
  simp [readDeviceId, transferId, transferOut, select, unselect, idTrace]

theorem wakeup_spec (s : St) : wakeup s = ⟨s.chip, s.trace ++ wakeTrace⟩ := by
  simp [wakeup, command, commandCore_wake, unselect, wakeTrace]

theorem busRun_append : ∀ (A B : List Ev) (o : Option (Bool × Bool)),
    busRun o (A ++ B) = busRun (busRun o A) B := by
  intro A
  induction A with
  | nil =>
    intro B o
    cases o <;> simp [busRun]
  | cons e t ih =>
    intro B o
    cases o with
    | none => simp [busRun]
    | some st =>
      simp only [List.cons_append, busRun]
      exact ih B _

theorem pollTrace_bal (b : Nat) :
    busRun (some (false, false)) (pollTrace b) = some (false, false) := by
  induction b with
  | zero => rfl
  | succ b ih =>
    rw [pollTrace, busRun_append]
    rw [show busRun (some (false, false)) statusSeq = some (false, false) from rfl]
    exact ih

theorem busRun_xfers (l : List Nat) :
    busRun (some (true, true)) (l.map Ev.xfer) = some (true, true) := by
  induction l with
  | nil => rfl
  | cons v t ih => simpa [busRun, busStep] using ih

theorem busRun_addrEvs (a : Nat) :
    busRun (some (true, true)) (addrEvs a) = some (true, true) := by
  simp [addrEvs, busRun, busStep]

theorem busRun_replicate (n : Nat) :
    busRun (some (true, true)) (List.replicate n (Ev.xfer 0)) = some (true, true) := by
  induction n with
  | zero => rfl
  | succ n ih => simpa [busRun, busStep, List.replicate] using ih

theorem busOk_readByte (a : Nat) (s : St)
    (h : busRun (some (false, false)) s.trace = some (false, false)) :
    busRun (some (false, false)) ((readByte a s).2.trace) = some (false, false) := by
  have hc : SPIFLASH_ARRAYREADLOWFREQ ≠ SPIFLASH_WAKE := by decide
  simp only [readByte, command_false_spec hc, transferAddr_spec, transferOut, unselect,
    List.append_assoc]
  rw [busRun_append, h, busRun_append, pollTrace_bal]
  simp [busRun, busStep, busRun_append, busRun_addrEvs]

theorem busOk_readBytes (a len : Nat) (s : St)
    (h : busRun (some (false, false)) s.trace = some (false, false)) :
    busRun (some (false, false)) ((readBytes a len s).2.trace) = some (false, false) := by
  have hc : SPIFLASH_ARRAYREAD ≠ SPIFLASH_WAKE := by decide
  simp only [readBytes, command_false_spec hc, transferAddr_spec, transferOut, transferReads,
    unselect, List.append_assoc]
  rw [busRun_append, h, busRun_append, pollTrace_bal]
  simp [busRun, busStep, busRun_append, busRun_addrEvs, busRun_replicate]

theorem busOk_readStatus (s : St)
    (h : busRun (some (false, false)) s.trace = some (false, false)) :
    busRun (some (false, false)) ((readStatus s).2.trace) = some (false, false) := by
  simp only [readStatus_spec]
  rw [busRun_append, h]
  rfl

theorem busOk_busy (s : St)
    (h : busRun (some (false, false)) s.trace = some (false, false)) :
    busRun (some (false, false)) ((busy s).2.trace) = some (false, false) := by
  simp only [busy, readStatus_spec]
  rw [busRun_append, h]
  rfl

theorem busOk_readDeviceId (s : St)
    (h : busRun (some (false, false)) s.trace = some (false, false)) :
    busRun (some (false, false)) ((readDeviceId s).2.trace) = some (false, false) := by
  simp only [readDeviceId_spec]
  rw [busRun_append, h]
  rfl

theorem busOk_readUniqueId (s : St)
    (h : busRun (some (false, false)) s.trace = some (false, false)) :
    busRun (some (false, false)) ((readUniqueId s).2.trace) = some (false, false) := by
  have hc : SPIFLASH_MACREAD ≠ SPIFLASH_WAKE := by decide
  simp only [readUniqueId, command_false_spec hc, transferReads, unselect, List.append_assoc]
  rw [busRun_append, h, busRun_append, pollTrace_bal]
  simp [busRun, busStep, busRun_append, busRun_replicate]

theorem busOk_writeByte (a v : Nat) (s : St)
    (h : busRun (some (false, false)) s.trace = some (false, false)) :
    busRun (some (false, false)) ((writeByte a v s).trace) = some (false, false) := by
  have hc : SPIFLASH_BYTEPAGEPROGRAM ≠ SPIFLASH_WAKE := by decide
  simp only [writeByte, command_true_spec hc, transferAddr_spec, transferData, unselect,
    List.append_assoc]
  rw [busRun_append, h, busRun_append, pollTrace_bal]
  simp [busRun, busStep, busRun_append, busRun_addrEvs, statusSeq]

theorem busOk_chipErase (s : St)
    (h : busRun (some (false, false)) s.trace = some (false, false)) :
    busRun (some (false, false)) ((chipErase s).trace) = some (false, false) := by
  have hc : SPIFLASH_CHIPERASE ≠ SPIFLASH_WAKE := by decide
  simp only [chipErase, command_true_spec hc, unselect, List.append_assoc]
  rw [busRun_append, h, busRun_append, pollTrace_bal]
  simp [busRun, busStep, busRun_append, statusSeq]

theorem busOk_blockErase4K (a : Nat) (s : St)
    (h : busRun (some (false, false)) s.trace = some (false, false)) :
    busRun (some (false, false)) ((blockErase4K a s).trace) = some (false, false) := by
  have hc : SPIFLASH_BLOCKERASE_4K ≠ SPIFLASH_WAKE := by decide
  simp only [blockErase4K, command_true_spec hc, transferAddr_spec, unselect, List.append_assoc]
  rw [busRun_append, h, busRun_append, pollTrace_bal]
  simp [busRun, busStep, busRun_append, busRun_addrEvs, statusSeq]

theorem busOk_blockErase32K (a : Nat) (s : St)
    (h : busRun (some (false, false)) s.trace = some (false, false)) :
    busRun (some (false, false)) ((blockErase32K a s).trace) = some (false, false) := by
  have hc : SPIFLASH_BLOCKERASE_32K ≠ SPIFLASH_WAKE := by decide
  simp only [blockErase32K, command_true_spec hc, transferAddr_spec, unselect, List.append_assoc]
  rw [busRun_append, h, busRun_append, pollTrace_bal]
  simp [busRun, busStep, busRun_append, busRun_addrEvs, statusSeq]

theorem busOk_blockErase64K (a : Nat) (s : St)
    (h : busRun (some (false, false)) s.trace = some (false, false)) :
    busRun (some (false, false)) ((blockErase64K a s).trace) = some (false, false) := by
  have hc : SPIFLASH_BLOCKERASE_64K ≠ SPIFLASH_WAKE := by decide
  simp only [blockErase64K, command_true_spec hc, transferAddr_spec, unselect, List.append_assoc]
  rw [busRun_append, h, busRun_append, pollTrace_bal]
  simp [busRun, busStep, busRun_append, busRun_addrEvs, statusSeq]

theorem busOk_sleep (s : St)
    (h : busRun (some (false, false)) s.trace = some (false, false)) :
    busRun (some (false, false)) ((sleep s).trace) = some (false, false) := by
  have hc : SPIFLASH_SLEEP ≠ SPIFLASH_WAKE := by decide
  simp only [sleep, command_false_spec hc, unselect, List.append_assoc]
  rw [busRun_append, h, busRun_append, pollTrace_bal]
  simp [busRun, busStep]

theorem busOk_wakeup (s : St)
    (h : busRun (some (false, false)) s.trace = some (false, false)) :
    busRun (some (false, false)) ((wakeup s).trace) = some (false, false) := by
  simp only [wakeup_spec]
  rw [busRun_append, h]
  rfl

theorem busOk_writeBytesGo (buf : Nat → Nat) :
    ∀ (fuel addr len maxB off : Nat) (s : St),
      busRun (some (false, false)) s.trace = some (false, false) →
      busRun (some (false, false)) ((writeBytesGo buf fuel addr len maxB off s).trace) =
        some (false, false) := by
  intro fuel
  induction fuel with
  | zero => intro addr len maxB off s h; exact h
  | succ fuel ih =>
    intro addr len maxB off s h
    by_cases hl : len = 0
    · simp only [writeBytesGo, if_pos hl]
      exact h
    · simp only [writeBytesGo, if_neg hl]
      apply ih
      have hc : SPIFLASH_BYTEPAGEPROGRAM ≠ SPIFLASH_WAKE := by decide
      simp only [command_true_spec hc, transferAddr_spec, programBytes_spec, unselect,
        List.append_assoc]
      rw [busRun_append, h, busRun_append, pollTrace_bal]
      simp [busRun, busStep, busRun_append, busRun_addrEvs, busRun_xfers, statusSeq]

theorem busOk_writeBytes (a : Nat) (buf : Nat → Nat) (len : Nat) (s : St)
    (h : busRun (some (false, false)) s.trace = some (false, false)) :
    busRun (some (false, false)) ((writeBytes a buf len s).trace) = some (false, false) :=
  busOk_writeBytesGo buf len a len _ 0 s h

theorem busOk_foundLoop :
    ∀ (fuel i d : Nat) (s : St),
      busRun (some (false, false)) s.trace = some (false, false) →
      busRun (some (false, false)) ((foundLoop fuel i d s).2.trace) = some (false, false) := by
  intro fuel
  induction fuel with
  | zero => intro i d s h; exact h
  | succ fuel ih =>
    intro i d s h
    have h1 : busRun (some (false, false)) (s.trace ++ idTrace) = some (false, false) := by
      rw [busRun_append, h]
      rfl
    simp only [foundLoop, readDeviceId_spec]
    split
    · exact h1
    · exact ih _ _ _ h1

theorem found_snd (s : St) : (found s).2 = (foundLoop 10 0 0 (wakeup s)).2 := rfl

theorem busOk_found (s : St)
    (h : busRun (some (false, false)) s.trace = some (false, false)) :
    busRun (some (false, false)) ((found s).2.trace) = some (false, false) := by
  rw [found_snd]
  apply busOk_foundLoop
  exact busOk_wakeup s h

theorem regionIsEmpty_snd (a len : Nat) (s : St) :
    (regionIsEmpty a len s).2 = (readBytes a len s).2 := rfl

theorem busOk_regionIsEmpty (a len : Nat) (s : St)
    (h : busRun (some (false, false)) s.trace = some (false, false)) :
    busRun (some (false, false)) ((regionIsEmpty a len s).2.trace) = some (false, false) := by
  rw [regionIsEmpty_snd]
  exact busOk_readBytes a len s h

theorem busOk_initFlash (jedecID : Nat) (s : St)
    (h : busRun (some (false, false)) s.trace = some (false, false)) :
    busRun (some (false, false)) ((initFlash jedecID s).2.trace) = some (false, false) := by
  have hsw : SPIFLASH_STATUSWRITE ≠ SPIFLASH_WAKE := by decide
  have hpre : busRun (some (false, false)) ((wakeup (unselect s)).trace) = some (false, false) := by
    apply busOk_wakeup
    simp only [unselect, List.append_assoc]
    rw [busRun_append, h]
    rfl
  have hsuc : ∀ s' : St, busRun (some (false, false)) s'.trace = some (false, false) →
      busRun (some (false, false)) ((initSuccess s').trace) = some (false, false) := by
    intro s' h'
    simp only [initSuccess, command_true_spec hsw, transferOut, unselect, List.append_assoc]
    rw [busRun_append, h', busRun_append, pollTrace_bal]
    simp [busRun, busStep, busRun_append, statusSeq]
  by_cases hj : jedecID = 0
  · simp only [initFlash, if_pos hj]
    exact hsuc _ hpre
  · simp only [initFlash, if_neg hj, readDeviceId_spec]
    have h1 : busRun (some (false, false)) ((wakeup (unselect s)).trace ++ idTrace) =
        some (false, false) := by
      rw [busRun_append, hpre]
      rfl
    split
    · exact hsuc _ h1
    · exact h1

theorem found_fst (s : St) : (found s).1 = ((foundLoop 10 0 0 (wakeup s)).1 != 0) := rfl

theorem goodStep_all_first (ids : Nat → Nat) (r0 : Nat) :
    ∀ k, (∀ j, j ≤ k → goodStep ids r0 j) → ids (r0 + k) % 65536 = ids r0 % 65536 := by
  intro k
  induction k with
  | zero => intro _; simp
  | succ k ih =>
    intro h
    rcases (h (k + 1) (Nat.le_refl _)).2.2 with h0 | heq
    · exact absurd h0 (Nat.succ_ne_zero k)
    · rw [show k + 1 - 1 = k from rfl] at heq
      rw [heq]
      exact ih fun j hj => h j (by omega)

theorem allStep_iff_allFirst (ids : Nat → Nat) (r0 : Nat) :
    (∀ k, k < 10 → goodStep ids r0 k) ↔ (∀ k, k < 10 → goodFirst ids r0 k) := by
  constructor
  · intro h k hk
    exact ⟨(h k hk).1, (h k hk).2.1, goodStep_all_first ids r0 k fun j hj => h j (by omega)⟩
  · intro h k hk
    refine ⟨(h k hk).1, (h k hk).2.1, ?_⟩
    cases k with
    | zero => exact Or.inl rfl
    | succ k =>
      right
      rw [show k + 1 - 1 = k from rfl]
      rw [(h (k + 1) hk).2.2, (h k (by omega)).2.2]

theorem firstViol_step (ids : Nat → Nat) (r0 m : Nat) (hm : ¬ goodFirst ids r0 m)
    (hpre : ∀ j, j < m → goodFirst ids r0 j) :
    ¬ goodStep ids r0 m ∧ ∀ j, j < m → goodStep ids r0 j := by
  constructor
  · intro hs
    apply hm
    refine ⟨hs.1, hs.2.1, ?_⟩
    cases m with
    | zero => simp
    | succ k =>
      rcases hs.2.2 with h0 | heq
      · exact absurd h0 (Nat.succ_ne_zero k)
      · rw [show k + 1 - 1 = k from rfl] at heq
        rw [heq]
        exact (hpre k (by omega)).2.2
  · intro j hj
    refine ⟨(hpre j hj).1, (hpre j hj).2.1, ?_⟩
    cases j with
    | zero => exact Or.inl rfl
    | succ k =>
      right
      rw [show k + 1 - 1 = k from rfl]
      rw [(hpre (k + 1) hj).2.2, (hpre k (by omega)).2.2]

theorem foundLoop_traceExt :
    ∀ (fuel i d : Nat) (s : St), ∃ t, (foundLoop fuel i d s).2.trace = s.trace ++ t := by
  intro fuel
  induction fuel with
  | zero => intro i d s; exact ⟨[], by simp [foundLoop]⟩
  | succ fuel ih =>
    intro i d s
    simp only [foundLoop, readDeviceId_spec]
    split
    · exact ⟨idTrace, rfl⟩
    · obtain ⟨t, ht⟩ := ih (i + 1) (s.chip.idSeq s.chip.idReads % 65536)
        ⟨{ s.chip with idReads := s.chip.idReads + 1 }, s.trace ++ idTrace⟩
      exact ⟨idTrace ++ t, by rw [ht]; simp [List.append_assoc]⟩

theorem foundLoop_spec (ids : Nat → Nat) (r0 : Nat) :
    ∀ (fuel i d : Nat) (s : St),
      s.chip.idSeq = ids → s.chip.idReads = r0 + i → fuel + i = 10 →
      (i = 0 → d = 0) →
      (0 < i → d = ids (r0 + (i - 1)) % 65536) →
      (∀ j, j < i → goodStep ids r0 j) →
      (((foundLoop fuel i d s).1 ≠ 0 ↔ ∀ k, k < 10 → goodStep ids r0 k)
        ∧ ((∀ k, k < 10 → goodStep ids r0 k) →
            (foundLoop fuel i d s).2.chip.idReads = r0 + 10)
        ∧ (∀ m, i ≤ m → m < 10 → ¬ goodStep ids r0 m →
            (∀ j, j < m → goodStep ids r0 j) →
            (foundLoop fuel i d s).2.chip.idReads = r0 + m + 1)) := by
  intro fuel
  induction fuel with
  | zero =>
    intro i d s hseq hreads hfi hd0 hdpos hinv
    have hi : i = 10 := by omega
    subst hi
    refine ⟨?_, ?_, ?_⟩
    · constructor
      · intro _ k hk
        exact hinv k hk
      · intro hall
        rw [hdpos (by omega)]
        exact (hall 9 (by omega)).1
    · intro _
      simpa [foundLoop] using hreads
    · intro m hm1 hm2 _ _
      omega
  | succ fuel ih =>
    intro i d s hseq hreads hfi hd0 hdpos hinv
    have hi9 : i ≤ 9 := by omega
    simp only [foundLoop, readDeviceId_spec, hseq, hreads]
    have hbreak :
        (ids (r0 + i) % 65536 = 0 ∨ ids (r0 + i) % 65536 = 65535 ∨
            (0 < i ∧ ids (r0 + i) % 65536 ≠ d)) ↔
          ¬ goodStep ids r0 i := by
      unfold goodStep
      by_cases hi0 : i = 0
      · subst hi0
        simp
        tauto
      · have hd := hdpos (Nat.pos_of_ne_zero hi0)
        subst hd
        simp [hi0, Nat.pos_of_ne_zero hi0]
        tauto
    by_cases hgood : goodStep ids r0 i
    · rw [if_neg (fun hc => (hbreak.mp hc) hgood)]
      have key := ih (i + 1) (ids (r0 + i) % 65536)
        ⟨{ busyCount := s.chip.busyCount, idSeq := ids, idReads := r0 + i + 1,
           mem := s.chip.mem, uid := s.chip.uid }, s.trace ++ idTrace⟩
        rfl rfl (by omega) (fun h => absurd h (Nat.succ_ne_zero i)) (fun _ => rfl)
        (fun j hj => by
          rcases Nat.lt_succ_iff_lt_or_eq.mp hj with h | h
          · exact hinv j h
          · subst h
            exact hgood)
      refine ⟨key.1, key.2.1, ?_⟩
      intro m him hm hbad hpref
      have him' : i + 1 ≤ m := by
        rcases Nat.eq_or_lt_of_le him with h | h
        · subst h
          exact absurd hgood hbad
        · omega
      exact key.2.2 m him' hm hbad hpref
    · rw [if_pos (hbreak.mpr hgood)]
      have hilt : i < 10 := by omega
      refine ⟨?_, ?_, ?_⟩
      · constructor
        · intro h
          exact absurd rfl h
        · intro hall
          exact absurd (hall i hilt) hgood
      · intro hall
        exact absurd (hall i hilt) hgood
      · intro m him hm hbad hpref
        have hmi : m = i := by
          by_contra hne
          exact hgood (hpref i (by omega))
        subst hmi
        rfl

theorem command_false_zero {cmd : Nat} {s : St} (h : cmd ≠ SPIFLASH_WAKE)
    (h0 : s.chip.busyCount = 0) :
    command cmd false s =
      ⟨s.chip, s.trace ++ (statusSeq ++ [Ev.beginTr, Ev.csLow, Ev.xfer cmd])⟩ := by
  rw [command_false_spec h, h0]
  simp [pollTrace, setBusy_zero h0]

theorem pollTrace_statusReads (b : Nat) :
    (pollTrace b).count (Ev.xfer SPIFLASH_STATUSREAD) = b + 1 := by
  induction b with
  | zero => rfl
  | succ b ih =>
    rw [pollTrace, List.count_append, ih,
      show List.count (Ev.xfer SPIFLASH_STATUSREAD) statusSeq = 1 from by decide]
    omega

/-- C1: every page-program chunk `(start, offset, len)` issued by
`writeBytes a buf n` stays inside one 256-byte page: its length is positive,
`start % 256 + len ≤ 256`, hence `start / 256 = (start + len - 1) / 256`;
the first chunk starts at `a` clipped to `256 - a % 256` bytes, and every
later chunk starts page-aligned with cap 256. -/
theorem spec_c1 (a len : Nat) :
    (∀ c ∈ writePlan a len,
        c.1 / 256 = (c.1 + c.2.2 - 1) / 256 ∧ 1 ≤ c.2.2 ∧ c.1 % 256 + c.2.2 ≤ 256)
    ∧ (len ≠ 0 → (writePlan a len).head? = some (a, 0, min len (256 - a % 256)))
    ∧ (∀ c ∈ (writePlan a len).tail, c.1 % 256 = 0 ∧ c.2.2 ≤ 256) := by
  refine ⟨?_, ?_, writePlan_tail a len⟩
  · intro c hc
    have h := writePlanGo_page len a len (256 - a % 256) 0 (Nat.le_refl _) rfl c hc
    exact ⟨page_div h.1 h.2, h.1, h.2⟩
  · intro h
    cases len with
    | zero => exact absurd rfl h
    | succ l =>
      simp only [writePlan, writePlanGo, if_neg (Nat.succ_ne_zero l), List.head?_cons]

/-- C1 witness: at `a = 100`, `n = 300` the plan is
`[(100, 0, 156), (256, 156, 144)]`; the second chunk satisfies the page
bound. -/
theorem spec_c1_w :
    (256 : Nat) / 256 = (256 + 144 - 1) / 256 ∧ 1 ≤ 144 ∧ (256 : Nat) % 256 + 144 ≤ 256 :=
  (spec_c1 100 300).1 (256, 156, 144) (by decide)

/-- C2: the chunk lengths of `writeBytes a buf n` sum to `n`, the chunks
cover consecutive addresses and buffer offsets starting at `a` and 0, the
concatenated payload bytes are exactly the first `n` bytes of `buf`, and
writing then reading back through the mock chip returns those `n` bytes. -/
theorem spec_c2 (a len : Nat) (buf : Nat → Nat) (s : St)
    (hbound : a + len ≤ 16777216) (hlen : len < 65536) (h0 : s.chip.busyCount = 0)
    (hbuf : ∀ i, i < len → buf i < 256) :
    ((writePlan a len).map fun c => c.2.2).sum = len
    ∧ planConsec a 0 (writePlan a len) = true
    ∧ planPayloads buf (writePlan a len) = (List.range len).map buf
    ∧ (readBytes a len (writeBytes a buf len s)).1 = (List.range len).map buf := by
  have hmax : 1 ≤ 256 - a % 256 := by omega
  refine ⟨writePlanGo_sum len a len _ 0 (Nat.le_refl _) hmax,
    writePlanGo_consec _ _ _ _ _, ?_, ?_⟩
  · rw [writePlan, writePlanGo_payloads buf len a len _ 0 (Nat.le_refl _) hmax]
    unfold payloadBytes
    apply List.map_congr_left
    intro i hi
    have hilt : i < len := List.mem_range.mp hi
    rw [Nat.zero_add]
    exact Nat.mod_eq_of_lt (hbuf i hilt)
  · rw [writeBytes_spec a buf len s h0]
    simp only [readBytes]
    apply List.map_congr_left
    intro i hi
    have hilt : i < len := List.mem_range.mp hi
    have hidx : (a % 16777216 + i) % 16777216 = a + i := by
      rw [Nat.mod_eq_of_lt (show a < 16777216 by omega)]
      exact Nat.mod_eq_of_lt (by omega)
    rw [hidx]
    show applyPlan buf s.chip.mem (writePlan a len) (a + i) % 256 = buf i
    rw [writePlan, applyPlanGo_spec buf len a len _ 0 _ _ (Nat.le_refl _) hmax hbound,
      if_pos (by omega)]
    have harg : a + i - a = i := by omega
    rw [harg, Nat.zero_add]
    simp [Nat.mod_eq_of_lt (hbuf i hilt)]

/-- C2 witness: `a = 250`, `n = 10` (crossing a page boundary). -/
theorem spec_c2_w : ((writePlan 250 10).map fun c => c.2.2).sum = 10 :=
  (spec_c2 250 10 (fun i => (i + 7) % 256) stA (by decide) (by decide) rfl
    (fun i _ => Nat.mod_lt (i + 7) (by decide))).1

/-- C10: a zero-length `writeBytes` is a complete no-op: the state (chip
memory and bus transcript) is unchanged and the chunk plan is empty — no
write-enable, no busy poll, no page-program opcode, no bus acquisition. -/
theorem spec_c10 (a : Nat) (buf : Nat → Nat) (s : St) :
    writeBytes a buf 0 s = s ∧ writePlan a 0 = [] :=
  ⟨rfl, rfl⟩

/-- C3: on a not-busy chip, every write-type command cycle — `writeByte`,
each `writeBytes` chunk, and the four erases — has the transcript shape
`writeHead op ++ ...`: the write-enable sub-command first (a single-byte
command, itself gated by its own poll, immediately followed by bus
release), then exactly one busy-status poll, then bus acquisition and the
opcode; the transcript of each cycle contains the write-enable opcode exactly
once immediately after a chip select. -/
theorem spec_c3 (c : Chip) (a v len : Nat) (buf : Nat → Nat) (h0 : c.busyCount = 0) :
    (writeByte a v ⟨c, []⟩).trace =
        writeHead SPIFLASH_BYTEPAGEPROGRAM ++
          (addrEvs a ++ [Ev.xfer (v % 256), Ev.csHigh, Ev.endTr])
    ∧ (chipErase ⟨c, []⟩).trace = writeHead SPIFLASH_CHIPERASE ++ [Ev.csHigh, Ev.endTr]
    ∧ (blockErase4K a ⟨c, []⟩).trace =
        writeHead SPIFLASH_BLOCKERASE_4K ++ (addrEvs a ++ [Ev.csHigh, Ev.endTr])
    ∧ (blockErase32K a ⟨c, []⟩).trace =
        writeHead SPIFLASH_BLOCKERASE_32K ++ (addrEvs a ++ [Ev.csHigh, Ev.endTr])
    ∧ (blockErase64K a ⟨c, []⟩).trace =
        writeHead SPIFLASH_BLOCKERASE_64K ++ (addrEvs a ++ [Ev.csHigh, Ev.endTr])
    ∧ (writeBytes a buf len ⟨c, []⟩).trace = planTrace buf (writePlan a len)
    ∧ (∀ ch ∈ writePlan a len, ∃ rest,
        chunkTrace buf ch = writeHead SPIFLASH_BYTEPAGEPROGRAM ++ rest)
    ∧ (∀ op : Nat, writeHead op =
        statusSeq ++
          ([Ev.beginTr, Ev.csLow, Ev.xfer SPIFLASH_WRITEENABLE, Ev.csHigh, Ev.endTr] ++
            (statusSeq ++ [Ev.beginTr, Ev.csLow, Ev.xfer op])))
    ∧ opCount SPIFLASH_WRITEENABLE statusSeq = 0
    ∧ opCount SPIFLASH_WRITEENABLE (writeHead SPIFLASH_BYTEPAGEPROGRAM) = 1
    ∧ opCount SPIFLASH_WRITEENABLE (writeHead SPIFLASH_CHIPERASE) = 1
    ∧ opCount SPIFLASH_WRITEENABLE (writeHead SPIFLASH_BLOCKERASE_4K) = 1
    ∧ opCount SPIFLASH_WRITEENABLE (writeHead SPIFLASH_BLOCKERASE_32K) = 1
    ∧ opCount SPIFLASH_WRITEENABLE (writeHead SPIFLASH_BLOCKERASE_64K) = 1
    ∧ opCount SPIFLASH_BYTEPAGEPROGRAM (writeHead SPIFLASH_BYTEPAGEPROGRAM) = 1 := by
  have h0' : (St.mk c []).chip.busyCount = 0 := h0
  have hPP : SPIFLASH_BYTEPAGEPROGRAM ≠ SPIFLASH_WAKE := by decide
  have hCE : SPIFLASH_CHIPERASE ≠ SPIFLASH_WAKE := by decide
  have h4K : SPIFLASH_BLOCKERASE_4K ≠ SPIFLASH_WAKE := by decide
  have h32K : SPIFLASH_BLOCKERASE_32K ≠ SPIFLASH_WAKE := by decide
  have h64K : SPIFLASH_BLOCKERASE_64K ≠ SPIFLASH_WAKE := by decide
  refine ⟨?_, ?_, ?_, ?_, ?_, ?_, ?_, fun _ => rfl, by decide, by decide, by decide,
    by decide, by decide, by decide, by decide⟩
  · simp [writeByte, command_true_zero hPP h0', transferAddr_spec, transferData,
      unselect, List.append_assoc]
  · simp [chipErase, command_true_zero hCE h0', unselect]
  · simp [blockErase4K, command_true_zero h4K h0', transferAddr_spec, unselect,
      List.append_assoc]
  · simp [blockErase32K, command_true_zero h32K h0', transferAddr_spec, unselect,
      List.append_assoc]
  · simp [blockErase64K, command_true_zero h64K h0', transferAddr_spec, unselect,
      List.append_assoc]
  · rw [writeBytes_spec _ _ _ _ h0]
    simp
  · intro ch _
    exact ⟨_, rfl⟩

/-- C3 witness: the chip-erase cycle on a concrete not-busy chip. -/
theorem spec_c3_w :
    (chipErase stA).trace = writeHead SPIFLASH_CHIPERASE ++ [Ev.csHigh, Ev.endTr] :=
  (spec_c3 chipA 0 0 0 (fun _ => 0) rfl).2.1

/-- C7: every addressed operation transmits, immediately after its opcode,
the three address bytes most-significant first (bits 23..16, 15..8, 7..0);
in particular address `0x012345` goes out as `0x01, 0x23, 0x45`. -/
theorem spec_c7 (c : Chip) (a v len : Nat) (buf : Nat → Nat) (h0 : c.busyCount = 0) :
    addrEvs 74565 = [Ev.xfer 1, Ev.xfer 35, Ev.xfer 69]
    ∧ (∀ a' : Nat, addrEvs a' =
        [Ev.xfer ((a' >>> 16) % 256), Ev.xfer ((a' >>> 8) % 256), Ev.xfer (a' % 256)])
    ∧ (readByte a ⟨c, []⟩).2.trace =
        statusSeq ++
          ([Ev.beginTr, Ev.csLow, Ev.xfer SPIFLASH_ARRAYREADLOWFREQ] ++
            (addrEvs a ++ [Ev.xfer 0, Ev.csHigh, Ev.endTr]))
    ∧ (readBytes a len ⟨c, []⟩).2.trace =
        statusSeq ++
          ([Ev.beginTr, Ev.csLow, Ev.xfer SPIFLASH_ARRAYREAD] ++
            (addrEvs a ++
              ([Ev.xfer 0] ++ (List.replicate len (Ev.xfer 0) ++ [Ev.csHigh, Ev.endTr]))))
    ∧ (writeByte a v ⟨c, []⟩).trace =
        writeHead SPIFLASH_BYTEPAGEPROGRAM ++
          (addrEvs a ++ [Ev.xfer (v % 256), Ev.csHigh, Ev.endTr])
    ∧ (blockErase4K a ⟨c, []⟩).trace =
        writeHead SPIFLASH_BLOCKERASE_4K ++ (addrEvs a ++ [Ev.csHigh, Ev.endTr])
    ∧ (blockErase32K a ⟨c, []⟩).trace =
        writeHead SPIFLASH_BLOCKERASE_32K ++ (addrEvs a ++ [Ev.csHigh, Ev.endTr])
    ∧ (blockErase64K a ⟨c, []⟩).trace =
        writeHead SPIFLASH_BLOCKERASE_64K ++ (addrEvs a ++ [Ev.csHigh, Ev.endTr])
    ∧ (writeBytes a buf len ⟨c, []⟩).trace = planTrace buf (writePlan a len)
    ∧ (∀ ch : Nat × Nat × Nat, chunkTrace buf ch =
        writeHead SPIFLASH_BYTEPAGEPROGRAM ++
          (addrEvs ch.1 ++
            ((payloadBytes buf ch.2.1 ch.2.2).map Ev.xfer ++ [Ev.csHigh, Ev.endTr]))) := by
  have h0' : (St.mk c []).chip.busyCount = 0 := h0
  have hPP : SPIFLASH_BYTEPAGEPROGRAM ≠ SPIFLASH_WAKE := by decide
  have h4K : SPIFLASH_BLOCKERASE_4K ≠ SPIFLASH_WAKE := by decide
  have h32K : SPIFLASH_BLOCKERASE_32K ≠ SPIFLASH_WAKE := by decide
  have h64K : SPIFLASH_BLOCKERASE_64K ≠ SPIFLASH_WAKE := by decide
  have hARLF : SPIFLASH_ARRAYREADLOWFREQ ≠ SPIFLASH_WAKE := by decide
  have hAR : SPIFLASH_ARRAYREAD ≠ SPIFLASH_WAKE := by decide
  refine ⟨by decide, fun _ => rfl, ?_, ?_, ?_, ?_, ?_, ?_, ?_, fun _ => rfl⟩
  · simp [readByte, command_false_zero hARLF h0', transferAddr_spec, transferOut,
      unselect, List.append_assoc]
  · simp [readBytes, command_false_zero hAR h0', transferAddr_spec, transferOut,
      transferReads, unselect, List.append_assoc]
  · simp [writeByte, command_true_zero hPP h0', transferAddr_spec, transferData,
      unselect, List.append_assoc]
  · simp [blockErase4K, command_true_zero h4K h0', transferAddr_spec, unselect,
      List.append_assoc]
  · simp [blockErase32K, command_true_zero h32K h0', transferAddr_spec, unselect,
      List.append_assoc]
  · simp [blockErase64K, command_true_zero h64K h0', transferAddr_spec, unselect,
      List.append_assoc]
  · rw [writeBytes_spec _ _ _ _ h0]
    simp

/-- C7 witness: the address bytes of `0x012345`. -/
theorem spec_c7_w : addrEvs 74565 = [Ev.xfer 1, Ev.xfer 35, Ev.xfer 69] :=
  (spec_c7 chipA 0 0 0 (fun _ => 0) rfl).1

/-- C8: the wake opcode is dispatched with no busy poll at all (and without
touching the busy state of the chip), while every other opcode is transmitted
only after the busy-wait: its transcript contains `busyCount + 1` status
reads — the last one reporting not-busy — before the select-and-opcode, and
the chip is left not-busy. -/
theorem spec_c8 (s : St) :
    command SPIFLASH_WAKE false s =
        ⟨s.chip, s.trace ++ [Ev.beginTr, Ev.csLow, Ev.xfer SPIFLASH_WAKE]⟩
    ∧ (∀ cmd : Nat, cmd ≠ SPIFLASH_WAKE →
        command cmd false s =
          ⟨{ s.chip with busyCount := 0 },
           s.trace ++ (pollTrace s.chip.busyCount ++ [Ev.beginTr, Ev.csLow, Ev.xfer cmd])⟩)
    ∧ (∀ b : Nat, (pollTrace b).count (Ev.xfer SPIFLASH_STATUSREAD) = b + 1)
    ∧ ([Ev.beginTr, Ev.csLow, Ev.xfer SPIFLASH_WAKE].count (Ev.xfer SPIFLASH_STATUSREAD) = 0) := by
  refine ⟨?_, ?_, pollTrace_statusReads, by decide⟩
  · simp [command, commandCore_wake]
  · intro cmd h
    exact command_false_spec h s

/-- C8 witness: the status-read opcode (any non-wake opcode) is gated. -/
theorem spec_c8_w :
    command SPIFLASH_STATUSREAD false stA =
      ⟨{ stA.chip with busyCount := 0 },
       stA.trace ++ (pollTrace stA.chip.busyCount ++
         [Ev.beginTr, Ev.csLow, Ev.xfer SPIFLASH_STATUSREAD])⟩ :=
  (spec_c8 stA).2.1 SPIFLASH_STATUSREAD (by decide)

/-- C9: the bus transcript of every public operation observes the scoped
acquisition discipline: starting with the bus closed and the chip
deselected, every byte transfer happens while the transaction is open and
the chip selected, and the operation ends with the bus closed and the chip
deselected — on every path, including the failure path of `initialize`. -/
theorem spec_c9 (c : Chip) (a v len jedecID : Nat) (buf : Nat → Nat) :
    busRun (some (false, false)) ((initFlash jedecID ⟨c, []⟩).2.trace) = some (false, false)
    ∧ busRun (some (false, false)) ((readDeviceId ⟨c, []⟩).2.trace) = some (false, false)
    ∧ busRun (some (false, false)) ((readUniqueId ⟨c, []⟩).2.trace) = some (false, false)
    ∧ busRun (some (false, false)) ((readByte a ⟨c, []⟩).2.trace) = some (false, false)
    ∧ busRun (some (false, false)) ((readBytes a len ⟨c, []⟩).2.trace) = some (false, false)
    ∧ busRun (some (false, false)) ((readStatus ⟨c, []⟩).2.trace) = some (false, false)
    ∧ busRun (some (false, false)) ((busy ⟨c, []⟩).2.trace) = some (false, false)
    ∧ busRun (some (false, false)) ((writeByte a v ⟨c, []⟩).trace) = some (false, false)
    ∧ busRun (some (false, false)) ((writeBytes a buf len ⟨c, []⟩).trace) = some (false, false)
    ∧ busRun (some (false, false)) ((chipErase ⟨c, []⟩).trace) = some (false, false)
    ∧ busRun (some (false, false)) ((blockErase4K a ⟨c, []⟩).trace) = some (false, false)
    ∧ busRun (some (false, false)) ((blockErase32K a ⟨c, []⟩).trace) = some (false, false)
    ∧ busRun (some (false, false)) ((blockErase64K a ⟨c, []⟩).trace) = some (false, false)
    ∧ busRun (some (false, false)) ((sleep ⟨c, []⟩).trace) = some (false, false)
    ∧ busRun (some (false, false)) ((wakeup ⟨c, []⟩).trace) = some (false, false)
    ∧ busRun (some (false, false)) ((found ⟨c, []⟩).2.trace) = some (false, false)
    ∧ busRun (some (false, false)) ((regionIsEmpty a len ⟨c, []⟩).2.trace) = some (false, false) := by
  have hnil : busRun (some (false, false)) ((⟨c, []⟩ : St).trace) = some (false, false) := rfl
  exact ⟨busOk_initFlash _ _ hnil, busOk_readDeviceId _ hnil, busOk_readUniqueId _ hnil,
    busOk_readByte _ _ hnil, busOk_readBytes _ _ _ hnil, busOk_readStatus _ hnil,
    busOk_busy _ hnil, busOk_writeByte _ _ _ hnil, busOk_writeBytes _ _ _ _ hnil,
    busOk_chipErase _ hnil, busOk_blockErase4K _ _ hnil, busOk_blockErase32K _ _ hnil,
    busOk_blockErase64K _ _ hnil, busOk_sleep _ hnil, busOk_wakeup _ hnil,
    busOk_found _ hnil, busOk_regionIsEmpty _ _ _ hnil⟩

/-- C4: `initialize` succeeds iff the configured expected id is 0 or the id
read from the chip equals it; on success its transcript contains exactly one
status-register-write opcode, transmitted right after a chip select and
immediately followed by the payload byte 0x00 (global unprotect); on
failure it contains none. -/
theorem spec_c4 (c : Chip) (jedecID : Nat) (h0 : c.busyCount = 0) :
    ((initFlash jedecID ⟨c, []⟩).1 = true ↔
        (jedecID = 0 ∨ c.idSeq c.idReads % 65536 = jedecID))
    ∧ opCount SPIFLASH_STATUSWRITE ((initFlash jedecID ⟨c, []⟩).2.trace) =
        (if (initFlash jedecID ⟨c, []⟩).1 = true then 1 else 0)
    ∧ ((initFlash jedecID ⟨c, []⟩).1 = true →
        ∃ A B, (initFlash jedecID ⟨c, []⟩).2.trace =
          A ++ ([Ev.beginTr, Ev.csLow, Ev.xfer SPIFLASH_STATUSWRITE, Ev.xfer 0] ++ B)) := by
  have hsw : SPIFLASH_STATUSWRITE ≠ SPIFLASH_WAKE := by decide
  by_cases hj : jedecID = 0
  · subst hj
    have h1 : initFlash 0 ⟨c, []⟩ =
        (true, ⟨c, [Ev.csHigh, Ev.endTr] ++
          (wakeTrace ++ (writeHead SPIFLASH_STATUSWRITE ++ [Ev.xfer 0, Ev.csHigh, Ev.endTr]))⟩) := by
      simp only [initFlash, if_pos rfl, initSuccess, wakeup_spec, unselect, transferOut]
      rw [command_true_zero hsw (by exact h0)]
      simp [List.append_assoc]
    rw [h1]
    refine ⟨by simp, ?_, fun _ => ?_⟩
    · show opCount SPIFLASH_STATUSWRITE
          ([Ev.csHigh, Ev.endTr] ++
            (wakeTrace ++ (writeHead SPIFLASH_STATUSWRITE ++ [Ev.xfer 0, Ev.csHigh, Ev.endTr]))) =
        if true = true then 1 else 0
      decide
    · refine ⟨[Ev.csHigh, Ev.endTr] ++ (wakeTrace ++ (statusSeq ++
        ([Ev.beginTr, Ev.csLow, Ev.xfer SPIFLASH_WRITEENABLE, Ev.csHigh, Ev.endTr] ++ statusSeq))),
        [Ev.csHigh, Ev.endTr], ?_⟩
      show ([Ev.csHigh, Ev.endTr] ++
          (wakeTrace ++ (writeHead SPIFLASH_STATUSWRITE ++ [Ev.xfer 0, Ev.csHigh, Ev.endTr]))) = _
      decide
  · by_cases hid : c.idSeq c.idReads % 65536 = jedecID
    · have h1 : initFlash jedecID ⟨c, []⟩ =
          (true, ⟨{ c with idReads := c.idReads + 1 },
            [Ev.csHigh, Ev.endTr] ++ (wakeTrace ++ (idTrace ++
              (writeHead SPIFLASH_STATUSWRITE ++ [Ev.xfer 0, Ev.csHigh, Ev.endTr])))⟩) := by
        simp only [initFlash, if_neg hj, wakeup_spec, unselect, readDeviceId_spec,
          transferOut, if_pos hid, initSuccess]
        rw [command_true_zero hsw (by exact h0)]
        simp [List.append_assoc]
      rw [h1]
      refine ⟨by simp [hid], ?_, fun _ => ?_⟩
      · show opCount SPIFLASH_STATUSWRITE
            ([Ev.csHigh, Ev.endTr] ++ (wakeTrace ++ (idTrace ++
              (writeHead SPIFLASH_STATUSWRITE ++ [Ev.xfer 0, Ev.csHigh, Ev.endTr])))) =
          if true = true then 1 else 0
        decide
      · refine ⟨[Ev.csHigh, Ev.endTr] ++ (wakeTrace ++ (idTrace ++ (statusSeq ++
          ([Ev.beginTr, Ev.csLow, Ev.xfer SPIFLASH_WRITEENABLE, Ev.csHigh, Ev.endTr] ++ statusSeq)))),
          [Ev.csHigh, Ev.endTr], ?_⟩
        show ([Ev.csHigh, Ev.endTr] ++ (wakeTrace ++ (idTrace ++
            (writeHead SPIFLASH_STATUSWRITE ++ [Ev.xfer 0, Ev.csHigh, Ev.endTr])))) = _
        decide
    · have h1 : initFlash jedecID ⟨c, []⟩ =
          (false, ⟨{ c with idReads := c.idReads + 1 },
            [Ev.csHigh, Ev.endTr] ++ (wakeTrace ++ idTrace)⟩) := by
        simp only [initFlash, if_neg hj, wakeup_spec, unselect, readDeviceId_spec,
          if_neg hid]
        simp [List.append_assoc]
      rw [h1]
      refine ⟨by simp [hj, hid], ?_, ?_⟩
      · show opCount SPIFLASH_STATUSWRITE
            ([Ev.csHigh, Ev.endTr] ++ (wakeTrace ++ idTrace)) =
          if false = true then 1 else 0
        decide
      · intro h
        simp at h

/-- C4 witness: expected id 0xEF30 against a chip reporting 0xEF30. -/
theorem spec_c4_w :
    (initFlash 61232 ⟨chipA, []⟩).1 = true ↔
      ((61232 : Nat) = 0 ∨ chipA.idSeq chipA.idReads % 65536 = 61232) :=
  (spec_c4 chipA 61232 rfl).1

/-- C5: `found` first wakes the chip, then reads the device id up to ten
times; it returns true iff all ten reads are non-zero, not 0xFFFF and equal
to the first read, it performs all ten reads in that case, and it stops
with the (m+1)-st read when the m-th read (0-based) is the first to violate
the condition. -/
theorem spec_c5 (s : St) :
    ((found s).1 = true ↔ ∀ k, k < 10 → goodFirst s.chip.idSeq s.chip.idReads k)
    ∧ ((∀ k, k < 10 → goodFirst s.chip.idSeq s.chip.idReads k) →
        (found s).2.chip.idReads = s.chip.idReads + 10)
    ∧ (∀ m, m < 10 → ¬ goodFirst s.chip.idSeq s.chip.idReads m →
        (∀ j, j < m → goodFirst s.chip.idSeq s.chip.idReads j) →
        (found s).2.chip.idReads = s.chip.idReads + m + 1)
    ∧ (∃ t, (found s).2.trace = s.trace ++ (wakeTrace ++ t)) := by
  have base := foundLoop_spec s.chip.idSeq s.chip.idReads 10 0 0 (wakeup s)
    (by rw [wakeup_spec]) (by simp [wakeup_spec]) rfl (fun _ => rfl)
    (fun h => absurd h (lt_irrefl 0)) (fun j hj => absurd hj (Nat.not_lt_zero j))
  obtain ⟨hiff, hall, hfirst⟩ := base
  refine ⟨?_, ?_, ?_, ?_⟩
  · rw [found_fst, bne_iff_ne]
    exact hiff.trans (allStep_iff_allFirst _ _)
  · intro h
    rw [found_snd]
    exact hall ((allStep_iff_allFirst _ _).mpr h)
  · intro m hm hbad hpre
    rw [found_snd]
    obtain ⟨hs1, hs2⟩ := firstViol_step _ _ m hbad hpre
    exact hfirst m (Nat.zero_le m) hm hs1 hs2
  · rw [found_snd]
    obtain ⟨t, ht⟩ := foundLoop_traceExt 10 0 0 (wakeup s)
    refine ⟨t, ?_⟩
    rw [ht, wakeup_spec]
    simp [List.append_assoc]

/-- C5 witness: ten consistent reads of 0xEF30 are accepted. -/
theorem spec_c5_w : (found stA).1 = true :=
  (spec_c5 stA).1.mpr (by decide)

/-- C6: for lengths in the `uint8` range, `regionIsEmpty` returns true iff
every byte of the addressed region reads as 0xFF; a single differing byte —
at any position, first or last included — makes it false. -/
theorem spec_c6 (a len : Nat) (s : St) (_hlen : len ≤ 255)
    (hmem : ∀ x, s.chip.mem x < 256) :
    (regionIsEmpty a len s).1 = true ↔
      ∀ i, i < len → s.chip.mem ((a % 16777216 + i) % 16777216) = 255 := by
  simp only [regionIsEmpty, readBytes, List.all_eq_true, List.mem_map, List.mem_range,
    beq_iff_eq]
  constructor
  · intro h i hi
    have hx := h (s.chip.mem ((a % 16777216 + i) % 16777216) % 256) ⟨i, hi, rfl⟩
    rwa [Nat.mod_eq_of_lt (hmem _)] at hx
  · rintro h b ⟨i, hi, rfl⟩
    rw [Nat.mod_eq_of_lt (hmem _)]
    exact h i hi

/-- C6 witness: an all-0xFF region of five bytes is empty. -/
theorem spec_c6_w : (regionIsEmpty 0 5 stA).1 = true :=
  (spec_c6 0 5 stA (by decide) (fun _ => (by decide : (255 : Nat) < 256))).mpr (by decide)

end SPIFlash
